import Mathlib

/-!
# A shallow embedding of src/arch.py (archinfo)

This file embeds the architecture-descriptor contract of `src/arch.py`:
the `Arch` constructor and its derivation logic, `copy`, `__eq__`,
`struct_fmt`, the tag-translation methods, `register_arch`,
`arch_from_id` and `reverse_ends`, and proves the specified properties
about them.

Modelling conventions:

* Python strings are `String`, Python ints are `Int`, byte strings are
  `List Nat` (one entry per byte).
* Python dicts are association lists kept in declared/insertion order;
  `d[k] = v` is `dictSet` (overwrite in place, else append), `k in d` is
  a `List.lookup` success.
* The optional `capstone` and `unicorn` imports of arch.py are absent
  (both bound to `None`), which is the minimal environment the source
  guards for; the value returned by pyvex's `default_vex_archinfo()` is
  passed to the constructor as the `defaultVexBlob` argument (`none`
  models pyvex being absent).
* Mutable objects nested inside the `vex_archinfo` dict are modelled as
  references (`PyVal.vref`) into an explicit `Heap`, so the aliasing
  created by Python's shallow `dict.copy()` is observable.
* Raised exceptions are modelled with `Except PyErr`; logging calls have
  no observable effect and are dropped.
-/

/-- The Python exceptions raised by arch.py, plus the two raised through
it by the struct module and by attribute access on `None`. -/
inductive PyErr where
  | archError : String → PyErr
  | typeError : String → PyErr
  | valueError : String → PyErr
  | runtimeError : String → PyErr
  | structError : PyErr
  | attributeError : PyErr
  deriving DecidableEq

/-- `Endness.LE` (src/arch.py line 32): the little-endian marker; the
source Endness class holds plain string constants. -/
def Endness.LE : String := "Iend_LE"

/-- `Endness.BE` (src/arch.py line 33): the big-endian marker. -/
def Endness.BE : String := "Iend_BE"

/-- `Endness.ME` (src/arch.py line 34): the middle-endian marker. -/
def Endness.ME : String := "Iend_ME"

/-- Values stored in the `vex_archinfo` dict: immutable ints and strings,
or a reference to a heap-allocated mutable object (such as the nested
`hwcache_info` dict that pyvex's `default_vex_archinfo()` allocates). -/
inductive PyVal where
  | vint : Int → PyVal
  | vstr : String → PyVal
  | vref : Nat → PyVal
  deriving DecidableEq

/-- A Python dict with string keys (the `vex_archinfo` blob), as an
association list in insertion order. -/
abbrev Blob := List (String × PyVal)

/-- The store of mutable Python objects that `PyVal.vref` points into. -/
abbrev Heap := List (Nat × PyVal)

/-- Python dict keys as they occur in the per-variant tables: the
`register_names` display map is keyed by int offsets, but `Arch.__init__`
performs a string-key membership test against it (line 119), and Python
dicts admit keys of either type, so keys are ints or strings. -/
inductive PKey where
  | kint : Int → PKey
  | kstr : String → PKey
  deriving DecidableEq

/-- Python dict assignment `d[k] = v`: overwrite in place when the key is
present (keeping its position), otherwise append. -/
def dictSet {α β : Type} [BEq α] (d : List (α × β)) (k : α) (v : β) :
    List (α × β) :=
  if (List.lookup k d).isSome then
    d.map (fun p => if p.1 == k then (k, v) else p)
  else
    d ++ [(k, v)]

/-- Python `dict.copy()` as used at src/arch.py line 141: a new dict with
the same key to value-object bindings.  The value objects (`PyVal`,
including any `vref`) are shared between the two dicts, which is exactly
what makes the copy shallow. -/
def dictCopy (b : Blob) : Blob := b

/-- In-place mutation of the heap object at reference `r` (mutating a
nested value of a blob, e.g. `blob['hwcache_info']['caches'] = x`). -/
def heapWrite (h : Heap) (r : Nat) (v : PyVal) : Heap := dictSet h r v

/-- Resolve one level of reference through the heap. -/
def deref (h : Heap) : PyVal → PyVal
  | .vref r => (List.lookup r h).getD (.vref r)
  | v => v

/-- The observable contents of a blob: every value resolved through the
heap. -/
def blobView (h : Heap) (b : Blob) : List (String × PyVal) :=
  b.map (fun p => (p.1, deref h p.2))

/-- `reverse_ends` (src/arch.py lines 499-501): the byte string is
unpacked as `len//4` little-endian 32-bit words and repacked big-endian,
which reverses the bytes inside each 4-byte group; `struct` raises
(modelled as `none`) when the length is not a multiple of 4. -/
def reverse_ends : List Nat → Option (List Nat)
  | [] => some []
  | a :: b :: c :: d :: rest =>
    (reverse_ends rest).map (fun r => d :: c :: b :: a :: r)
  | _ => none

/-- The class-attribute data a concrete architecture variant declares
(the per-variant overrides of the class attributes at src/arch.py lines
308-388); defaults are the base-class values from the source.  Only the
fields reached by the embedded methods are carried. -/
structure ArchClass where
  name : String := ""
  bits : Int := 0
  registers : List (String × (Int × Int)) := []
  register_names : List (PKey × String) := []
  ret_instruction : List Nat := []
  nop_instruction : List Nat := []
  memory_endness : String := Endness.LE
  register_endness : String := Endness.LE
  cs_mode : Option Int := none
  uc_mode : Option Int := none
  dynamic_tag_translation : List (PKey × String) := []
  symbol_type_translation : List (PKey × String) := []

/-- A constructed descriptor instance, holding the fields `Arch.__init__`
leaves behind (instance attributes, plus the class attributes the
embedded methods read through `self`). -/
structure ArchInst where
  name : String
  bits : Int
  memory_endness : String
  register_endness : String
  ret_instruction : List Nat
  nop_instruction : List Nat
  registers : List (String × (Int × Int))
  register_names : List (PKey × String)
  register_size_names : List ((Int × Int) × String)
  cs_mode : Option Int
  uc_mode : Option Int
  uc_regs : Option (List (String × Int))
  vex_archinfo : Option Blob
  dynamic_tag_translation : List (PKey × String)
  symbol_type_translation : List (PKey × String)
  deriving DecidableEq

/-- The value of `pyvex.vex_endness_from_string('VexEndnessBE')` written
into the blob at src/arch.py line 101; the concrete number is external to
this repository and never inspected by it. -/
def vexEndnessBE : Int := 0x602

/-- The reverse register-lookup derivation of `Arch.__init__`
(src/arch.py lines 110-121): iterate the forward `registers` table, skip
the generic names for the X86/AMD64 families, skip a colliding entry
whose name is not a key of the `register_names` display map, and
otherwise assign (which overwrites on collision). -/
def build_register_size_names (name : String)
    (register_names : List (PKey × String)) :
    List (String × (Int × Int)) → List ((Int × Int) × String) →
    List ((Int × Int) × String)
  | [], acc => acc
  | (k, v) :: rest, acc =>
    if (name = "X86" ∨ name = "AMD64") ∧ (k = "bp" ∨ k = "sp" ∨ k = "ip") then
      build_register_size_names name register_names rest acc
    else if (List.lookup v acc).isSome ∧
        (List.lookup (PKey.kstr k) register_names).isNone then
      build_register_size_names name register_names rest acc
    else
      build_register_size_names name register_names rest (dictSet acc v k)

/-- `Arch.__init__` (src/arch.py lines 93-133) in the environment
described in the file header: capstone and unicorn absent, pyvex's
`default_vex_archinfo()` result supplied as `defaultVexBlob`.

* An endness outside the three markers raises `ArchError` (line 94).
* For `Endness.BE`: the blob's `endness` key is rebound when the blob is
  truthy (non-empty), the endness fields are set to BE, the capstone
  mode fix-up is skipped (`_capstone` is `None`, line 104), and the
  return/no-op byte strings are passed through `reverse_ends`, which
  raises for lengths not a multiple of 4.
* The reverse register-lookup table is derived (lines 110-121).
* When `uc_mode` is set (lines 124-133): under BE the source evaluates
  `_unicorn.UC_MODE_LITTLE_ENDIAN` with `_unicorn = None` and raises
  `AttributeError`; otherwise `uc_regs` becomes the empty map, since
  probing `uc_const = None` with `hasattr` never succeeds. -/
def Arch.init (c : ArchClass) (endness : String) (defaultVexBlob : Option Blob) :
    Except PyErr ArchInst :=
  if ¬ (endness = Endness.LE ∨ endness = Endness.BE ∨ endness = Endness.ME) then
    .error (.archError "Must pass a valid VEX endness: Endness.LE or Endness.BE")
  else if endness = Endness.BE then
    match reverse_ends c.ret_instruction, reverse_ends c.nop_instruction with
    | some r, some n =>
      if c.uc_mode.isSome then
        .error .attributeError
      else
        .ok { name := c.name
              bits := c.bits
              memory_endness := Endness.BE
              register_endness := Endness.BE
              ret_instruction := r
              nop_instruction := n
              registers := c.registers
              register_names := c.register_names
              register_size_names :=
                build_register_size_names c.name c.register_names c.registers []
              cs_mode := c.cs_mode
              uc_mode := c.uc_mode
              uc_regs := none
              vex_archinfo :=
                match defaultVexBlob with
                | some b =>
                  if b.isEmpty then some b
                  else some (dictSet b "endness" (PyVal.vint vexEndnessBE))
                | none => none
              dynamic_tag_translation := c.dynamic_tag_translation
              symbol_type_translation := c.symbol_type_translation }
    | _, _ => .error .structError
  else
    .ok { name := c.name
          bits := c.bits
          memory_endness := c.memory_endness
          register_endness := c.register_endness
          ret_instruction := c.ret_instruction
          nop_instruction := c.nop_instruction
          registers := c.registers
          register_names := c.register_names
          register_size_names :=
            build_register_size_names c.name c.register_names c.registers []
          cs_mode := c.cs_mode
          uc_mode := c.uc_mode
          uc_regs := if c.uc_mode.isSome then some [] else none
          vex_archinfo := defaultVexBlob
          dynamic_tag_translation := c.dynamic_tag_translation
          symbol_type_translation := c.symbol_type_translation }

/-- `Arch.copy` (src/arch.py lines 136-143): construct a fresh instance
of the same class at `self.memory_endness` (the fresh construction draws
its own `default_vex_archinfo()` blob, `freshVexBlob`), then rebind its
`vex_archinfo` to `self.vex_archinfo.copy()` — a shallow dict copy.  When
`self.vex_archinfo` is `None` the `.copy()` attribute access raises. -/
def Arch.copy (c : ArchClass) (a : ArchInst) (freshVexBlob : Option Blob) :
    Except PyErr ArchInst :=
  match Arch.init c a.memory_endness freshVexBlob with
  | .error e => .error e
  | .ok na =>
    match a.vex_archinfo with
    | none => .error .attributeError
    | some b => .ok { na with vex_archinfo := some (dictCopy b) }

/-- `Arch.__eq__` (src/arch.py lines 148-153) between two descriptors:
name, bits and memory endness must all agree. -/
def Arch.beq (a b : ArchInst) : Bool :=
  a.name == b.name && a.bits == b.bits && a.memory_endness == b.memory_endness

/-- `Arch.struct_fmt` (src/arch.py lines 193-219): endianness prefix plus
a width letter for 8/16/32/64 bits, defaulting to the descriptor's own
width; any other effective width raises `ValueError`. -/
def struct_fmt (a : ArchInst) (size : Option Int) : Except PyErr String :=
  let sz := match size with
    | none => a.bits
    | some s => s
  let fmt := if a.memory_endness = Endness.BE then ">" else "<"
  if sz = 64 then .ok (fmt ++ "Q")
  else if sz = 32 then .ok (fmt ++ "I")
  else if sz = 16 then .ok (fmt ++ "H")
  else if sz = 8 then .ok (fmt ++ "B")
  else .error (.valueError "Invalid size: Must be a muliple of 8")

/-- `Arch.translate_dynamic_tag` (src/arch.py lines 255-261): a hit
returns the table's value (`Sum.inr`); a miss logs a diagnostic when the
tag is an int (no observable effect) and returns the tag itself
(`Sum.inl`).  The method is total: the `KeyError` is caught. -/
def Arch.translate_dynamic_tag (a : ArchInst) (tag : PKey) : PKey ⊕ String :=
  match List.lookup tag a.dynamic_tag_translation with
  | some v => .inr v
  | none => .inl tag

/-- `Arch.translate_symbol_type` (src/arch.py lines 263-269): same
shape as `translate_dynamic_tag` over the symbol-type table. -/
def Arch.translate_symbol_type (a : ArchInst) (tag : PKey) : PKey ⊕ String :=
  match List.lookup tag a.symbol_type_translation with
  | some v => .inr v
  | none => .inl tag

/-- A registry entry, the 4-tuple appended to `arch_id_map` at
src/arch.py line 427.  A regular expression is modelled by its compiled
matcher, the Boolean function `re.match(rx, ·)` (anchored at the start of
the string); the class slot holds the variant's class-attribute data,
instantiated through `Arch.init`. -/
structure RegEntry where
  regexes : List (String → Bool)
  bits : Int
  endness : String
  cls : ArchClass

/-- The process-wide registry state: `arch_id_map` and `all_arches`
(src/arch.py lines 391-393). -/
structure RegState where
  arch_id_map : List RegEntry := []
  all_arches : List ArchInst := []

/-- `register_arch` (src/arch.py lines 395-432).  The type and regex
validation of lines 411-426 is vacuous in this typed embedding (regexes
is a list of compiled matchers, bits an int, and the endness check of
line 424 only fires for a non-string endness, impossible here).  The
entry is appended to `arch_id_map` first (line 427); the instances are
constructed afterwards (lines 428-432), so a construction failure
propagates with the entry already registered.  For endness `"any"` the
BE instance is constructed and retained before the LE one. -/
def register_arch (st : RegState) (regexes : List (String → Bool)) (bits : Int)
    (endness : String) (cls : ArchClass) (defaultVexBlob : Option Blob) :
    RegState × Except PyErr Unit :=
  let st1 : RegState :=
    { st with arch_id_map := st.arch_id_map ++ [⟨regexes, bits, endness, cls⟩] }
  if endness = "any" then
    match Arch.init cls Endness.BE defaultVexBlob with
    | .error e => (st1, .error e)
    | .ok aBE =>
      match Arch.init cls Endness.LE defaultVexBlob with
      | .error e => ({ st1 with all_arches := st1.all_arches ++ [aBE] }, .error e)
      | .ok aLE =>
        ({ st1 with all_arches := st1.all_arches ++ [aBE, aLE] }, .ok ())
  else
    match Arch.init cls endness defaultVexBlob with
    | .error e => (st1, .error e)
    | .ok a => ({ st1 with all_arches := st1.all_arches ++ [a] }, .ok ())

/-- Python `str.lower()` as applied to the ASCII identifiers and hints
arch.py handles. -/
def strLower (s : String) : String := String.mk (s.data.map Char.toLower)

/-- Helper for `strContains`: does `pat` occur in the remaining
characters? -/
def strContainsAux (pat : List Char) : List Char → Bool
  | [] => pat.isEmpty
  | c :: t => List.isPrefixOf pat (c :: t) || strContainsAux pat t

/-- Python substring containment `pat in s`. -/
def strContains (s pat : String) : Bool := strContainsAux pat.data s.data

/-- The `bits` argument of `arch_from_id`: an int or a string (the
source's default is the empty string). -/
inductive BitsHint where
  | bint : Int → BitsHint
  | bstr : String → BitsHint
  deriving DecidableEq

/-- Python truthiness of the bits hint: `0` and `""` are falsy. -/
def bitsTruthy : BitsHint → Bool
  | .bint n => n != 0
  | .bstr s => s != ""

/-- Python `==` between the bits hint and an int: a string never equals
an int. -/
def bitsEqInt : BitsHint → Int → Bool
  | .bint n, m => n == m
  | .bstr _, _ => false

/-- The bits normalization of `arch_from_id` (src/arch.py lines 441-448),
applied to the identifier before it is lower-cased. -/
def normalize_bits (bits : BitsHint) (ident : String) : BitsHint :=
  if bitsEqInt bits 64 ||
      (match bits with | .bstr s => strContains s "64" | .bint _ => false) then
    .bint 64
  else if (match bits with | .bstr s => strContains s "32" | .bint _ => false) then
    .bint 32
  else if !bitsTruthy bits && strContains ident "64" then .bint 64
  else if !bitsTruthy bits && strContains ident "32" then .bint 32
  else bits

/-- The endness normalization of `arch_from_id` (src/arch.py lines
450-468): ordered first-match-wins substring rules on the lower-cased
hint. -/
def normalize_endness (endness : String) : String :=
  let e := strLower endness
  if strContains e "lit" then Endness.LE
  else if strContains e "big" then Endness.BE
  else if strContains e "lsb" then Endness.LE
  else if strContains e "msb" then Endness.BE
  else if strContains e "le" then Endness.LE
  else if strContains e "be" then Endness.BE
  else if strContains e "l" then "unsure"
  else if strContains e "b" then "unsure"
  else "unsure"

/-- The registry scan of `arch_from_id` (src/arch.py lines 472-484): the
first entry with a matching pattern, compatible bits, and an acceptable
endness wins. -/
def find_entry (ident : String) (bits : BitsHint) (endness : String) :
    List RegEntry → Option RegEntry
  | [] => none
  | e :: rest =>
    if !(e.regexes.any (fun rx => rx ident)) then
      find_entry ident bits endness rest
    else if bitsTruthy bits && !bitsEqInt bits e.bits then
      find_entry ident bits endness rest
    else if e.endness == "any" || endness == e.endness || endness == "unsure" then
      some e
    else
      find_entry ident bits endness rest

/-- Modelled from the spec: the concrete variant constructors live in the
per-architecture data modules outside src/, and take their endianness
argument with a little-endian default, so the bare call `cls()` at
src/arch.py line 490 returns the default little-endian instance
(spec section 4.4). -/
def default_ctor_endness : String := Endness.LE

/-- `arch_from_id` (src/arch.py lines 435-496): normalize the hints, scan
the registry in order, and instantiate the winning entry's class at the
resolved endianness. -/
def arch_from_id (amap : List RegEntry) (ident0 : String) (endness0 : String)
    (bits0 : BitsHint) (defaultVexBlob : Option Blob) : Except PyErr ArchInst :=
  let bits := normalize_bits bits0 ident0
  let endness := normalize_endness endness0
  let ident := strLower ident0
  match find_entry ident bits endness amap with
  | none => .error (.runtimeError "Can not find architecture info")
  | some e =>
    if endness == "unsure" then
      if e.endness == "any" then Arch.init e.cls default_ctor_endness defaultVexBlob
      else Arch.init e.cls e.endness defaultVexBlob
    else Arch.init e.cls endness defaultVexBlob

/-- Specification-side statement of "reversed in 4-byte groups" (claims
C8 and C10): split the byte string into consecutive groups of four and
reverse each group. -/
def rev4groups (s : List Nat) : List Nat :=
  if h : s = [] then []
  else (s.take 4).reverse ++ rev4groups (s.drop 4)
termination_by s.length
decreasing_by
  simp only [List.length_drop]
  exact Nat.sub_lt (List.length_pos.mpr h) (by norm_num)

/-- Unfolding `rev4groups` on the empty byte string. -/
theorem rev4groups_nil : rev4groups [] = [] := by
  rw [rev4groups]
  simp

/-- Unfolding `rev4groups` on one leading 4-byte group. -/
theorem rev4groups_cons4 (a b c d : Nat) (t : List Nat) :
    rev4groups (a :: b :: c :: d :: t) = d :: c :: b :: a :: rev4groups t := by
  rw [rev4groups, dif_neg (List.cons_ne_nil a _)]
  have h1 : (a :: b :: c :: d :: t).take 4 = [a, b, c, d] := rfl
  have h2 : (a :: b :: c :: d :: t).drop 4 = t := rfl
  rw [h1, h2]
  rfl

/-- Auxiliary induction for `reverse_ends_eq_rev4groups`, on the number of
4-byte groups. -/
theorem reverse_ends_eq_rev4groups_aux (n : Nat) :
    ∀ s : List Nat, s.length = 4 * n → reverse_ends s = some (rev4groups s) := by
  induction n with
  | zero =>
    intro s hs
    have hnil : s = [] := List.length_eq_zero.mp (by omega)
    subst hnil
    rw [rev4groups_nil]
    rfl
  | succ m ih =>
    intro s hs
    rcases s with _ | ⟨a, _ | ⟨b, _ | ⟨c, _ | ⟨d, t⟩⟩⟩⟩ <;>
      simp only [List.length_nil, List.length_cons] at hs
    · omega
    · omega
    · omega
    · omega
    · have ht : t.length = 4 * m := by omega
      have h1 : reverse_ends (a :: b :: c :: d :: t) =
          (reverse_ends t).map (fun r => d :: c :: b :: a :: r) := rfl
      rw [h1, ih t ht, rev4groups_cons4]
      rfl

/-- On byte strings whose length is a multiple of 4, `reverse_ends`
succeeds and computes the 4-byte-group reversal. -/
theorem reverse_ends_eq_rev4groups (s : List Nat) (h : s.length % 4 = 0) :
    reverse_ends s = some (rev4groups s) :=
  reverse_ends_eq_rev4groups_aux (s.length / 4) s (by omega)

/-- Fields of a descriptor constructed at an endness other than big:
everything is kept as the variant declared it. -/
theorem Arch.init_not_be (c : ArchClass) (e : String) (fb : Option Blob)
    (a : ArchInst) (hne : e ≠ Endness.BE) (h : Arch.init c e fb = .ok a) :
    a.name = c.name ∧ a.bits = c.bits ∧ a.memory_endness = c.memory_endness ∧
    a.register_endness = c.register_endness ∧
    a.ret_instruction = c.ret_instruction ∧
    a.nop_instruction = c.nop_instruction ∧
    a.vex_archinfo = fb := by
  unfold Arch.init at h
  by_cases hval : e = Endness.LE ∨ e = Endness.BE ∨ e = Endness.ME
  · rw [if_neg (not_not_intro hval), if_neg hne] at h
    simp only [Except.ok.injEq] at h
    subst h
    simp
  · rw [if_pos hval] at h
    exact Except.noConfusion h

/-- Fields of a descriptor constructed at big endness: the endianness
fields are set to big and the instruction byte strings are the
`reverse_ends` images of the declared ones. -/
theorem Arch.init_be (c : ArchClass) (fb : Option Blob) (a : ArchInst)
    (h : Arch.init c Endness.BE fb = .ok a) :
    a.name = c.name ∧ a.bits = c.bits ∧ a.memory_endness = Endness.BE ∧
    a.register_endness = Endness.BE ∧
    reverse_ends c.ret_instruction = some a.ret_instruction ∧
    reverse_ends c.nop_instruction = some a.nop_instruction := by
  unfold Arch.init at h
  rw [if_neg (not_not_intro (Or.inr (Or.inl rfl))), if_pos rfl] at h
  cases hr : reverse_ends c.ret_instruction with
  | none =>
    rw [hr] at h
    exact Except.noConfusion h
  | some r =>
    rw [hr] at h
    cases hn : reverse_ends c.nop_instruction with
    | none =>
      rw [hn] at h
      exact Except.noConfusion h
    | some n =>
      rw [hn] at h
      by_cases hu : c.uc_mode.isSome = true
      · rw [hu] at h
        exact Except.noConfusion h
      · have hu2 : c.uc_mode.isSome = false := by
          simpa using hu
        rw [hu2] at h
        injection h with h2
        subst h2
        exact ⟨rfl, rfl, rfl, rfl, rfl, rfl⟩

/-- The identity triple of any successfully constructed descriptor: name
and bits come from the class; memory endness is big exactly when big was
requested, and the class default otherwise. -/
theorem Arch.init_triple (c : ArchClass) (e : String) (fb : Option Blob)
    (a : ArchInst) (h : Arch.init c e fb = .ok a) :
    a.name = c.name ∧ a.bits = c.bits ∧
    a.memory_endness = (if e = Endness.BE then Endness.BE else c.memory_endness) := by
  by_cases hbe : e = Endness.BE
  · subst hbe
    have hb := Arch.init_be c fb a h
    rw [if_pos rfl]
    exact ⟨hb.1, hb.2.1, hb.2.2.1⟩
  · have hn := Arch.init_not_be c e fb a hbe h
    rw [if_neg hbe]
    exact ⟨hn.1, hn.2.1, hn.2.2.1⟩

/-- Inversion of a successful `Arch.copy`: the fresh instance was built at
the source's memory endness, the source blob existed, and the result is
that instance carrying the shallow blob copy. -/
theorem Arch.copy_ok (c : ArchClass) (a : ArchInst) (fb2 : Option Blob)
    (na : ArchInst) (h : Arch.copy c a fb2 = .ok na) :
    ∃ na0 b, Arch.init c a.memory_endness fb2 = .ok na0 ∧
      a.vex_archinfo = some b ∧
      na = { na0 with vex_archinfo := some (dictCopy b) } := by
  unfold Arch.copy at h
  cases hinit : Arch.init c a.memory_endness fb2 with
  | error e =>
    rw [hinit] at h
    exact Except.noConfusion h
  | ok na0 =>
    rw [hinit] at h
    cases hvex : a.vex_archinfo with
    | none =>
      rw [hvex] at h
      exact Except.noConfusion h
    | some b =>
      rw [hvex] at h
      injection h with h2
      exact ⟨na0, b, rfl, rfl, h2.symm⟩

/-- Claim C1, counterexample: constructing the base variant with the
valid middle endness succeeds, but reading back `memory_endness` and
`register_endness` yields little, not middle — `Arch.__init__` only
reassigns the endianness fields on the big-endian path (lines 99-103), so
`Endness.ME` leaves the class defaults in place. -/
theorem endness_middle_readback_counterexample :
    ((Arch.init ({} : ArchClass) Endness.ME none).map
        (fun a => (a.memory_endness, a.register_endness))) =
      .ok (Endness.LE, Endness.LE) ∧
    Endness.LE ≠ Endness.ME :=
  ⟨rfl, by decide⟩

/-- Claim C1 as amended: for a default-little variant (the base-class
defaults) construction succeeds at each of the three valid endness
values; reading back the endianness fields yields the requested value for
little and big, while middle leaves the declared (little) defaults. -/
theorem endness_readback_amended (c : ArchClass) (fb : Option Blob) (e : String)
    (hm : c.memory_endness = Endness.LE) (hr : c.register_endness = Endness.LE)
    (huc : c.uc_mode = none)
    (hret : c.ret_instruction.length % 4 = 0)
    (hnop : c.nop_instruction.length % 4 = 0)
    (he : e = Endness.LE ∨ e = Endness.BE ∨ e = Endness.ME) :
    ∃ a, Arch.init c e fb = .ok a ∧
      a.memory_endness = (if e = Endness.ME then Endness.LE else e) ∧
      a.register_endness = (if e = Endness.ME then Endness.LE else e) := by
  rcases he with h | h | h <;> subst h
  · unfold Arch.init
    rw [if_neg (not_not_intro (Or.inl rfl)), if_neg (by decide : ¬(Endness.LE = Endness.BE))]
    refine ⟨_, rfl, ?_, ?_⟩
    · rw [if_neg (by decide : ¬(Endness.LE = Endness.ME))]
      exact hm
    · rw [if_neg (by decide : ¬(Endness.LE = Endness.ME))]
      exact hr
  · have h4r := reverse_ends_eq_rev4groups _ hret
    have h4n := reverse_ends_eq_rev4groups _ hnop
    unfold Arch.init
    rw [if_neg (not_not_intro (Or.inr (Or.inl rfl))), if_pos rfl, h4r, h4n, huc]
    refine ⟨_, rfl, ?_, ?_⟩ <;>
      rw [if_neg (by decide : ¬(Endness.BE = Endness.ME))]
  · unfold Arch.init
    rw [if_neg (not_not_intro (Or.inr (Or.inr rfl))),
      if_neg (by decide : ¬(Endness.ME = Endness.BE))]
    refine ⟨_, rfl, ?_, ?_⟩
    · rw [if_pos rfl]
      exact hm
    · rw [if_pos rfl]
      exact hr

/-- Witness for `endness_readback_amended` at the base variant and the
big endness. -/
theorem endness_readback_amended_witness :
    ∃ a, Arch.init ({} : ArchClass) Endness.BE none = .ok a ∧
      a.memory_endness = (if Endness.BE = Endness.ME then Endness.LE else Endness.BE) ∧
      a.register_endness = (if Endness.BE = Endness.ME then Endness.LE else Endness.BE) :=
  endness_readback_amended {} none Endness.BE rfl rfl rfl (by decide) (by decide)
    (Or.inr (Or.inl rfl))

/-- A variant with a unicorn mode selector; with the unicorn backend
absent, constructing it big-endian raises `AttributeError` at src/arch.py
line 126. -/
def ucCls : ArchClass := { name := "UC", bits := 32, uc_mode := some 1 }

/-- Claim C2: registering `ucCls` under endness `"any"` first appends the
registry tuple (line 427) and only then constructs the big-endian
instance (line 429), which fails; the failure propagates, yet the entry
remains in `arch_id_map` with no instance in `all_arches` — the registry
is *not* left unmodified for that entry, contradicting the claim and
matching the defect flagged by the specification's section 9. -/
theorem register_arch_partial_registration :
    (register_arch {} [] 32 "any" ucCls none).2 = .error PyErr.attributeError ∧
    ((register_arch {} [] 32 "any" ucCls none).1.arch_id_map.map
        (fun en => (en.bits, en.endness, en.cls.name))) = [(32, "any", "UC")] ∧
    (register_arch {} [] 32 "any" ucCls none).1.all_arches = [] :=
  ⟨rfl, rfl, rfl⟩

/-- A variant configured with a pyvex blob; reference 0 stands for the
nested mutable `hwcache_info` object of the original's blob. -/
def c3cls : ArchClass := { name := "VEXY", bits := 32 }

/-- The original's vex blob: one key whose value is the nested mutable
object at heap reference 0. -/
def blob0 : Blob := [("hwcache_info", PyVal.vref 0)]

/-- The heap holding the nested mutable object shared via reference 0. -/
def heap0 : Heap := [(0, PyVal.vint 5)]

/-- The fresh blob allocated by `default_vex_archinfo()` during the
fresh construction inside `copy` (a different reference, 1). -/
def freshBlob1 : Blob := [("hwcache_info", PyVal.vref 1)]

/-- Claim C3, counterexample: the blob of the descriptor returned by
`copy` is `blob0` itself — the same key-to-reference bindings as the
original's blob, because `dict.copy()` is shallow — and writing through
the shared reference 0 (a nested mutation reachable from the copy's
blob) changes the original's observable blob, so the blob is not an
independent deep copy. -/
theorem copy_blob_shallow_counterexample :
    ((Arch.init c3cls Endness.LE (some blob0)).bind
        (fun a => Arch.copy c3cls a (some freshBlob1))).map
      (fun na => na.vex_archinfo) = .ok (some blob0) ∧
    blobView (heapWrite heap0 0 (PyVal.vint 9)) blob0 ≠ blobView heap0 blob0 :=
  ⟨rfl, by decide⟩

/-- Claim C3 as amended: `copy` returns a descriptor equal to the
original under the (name, bits, memory-endianness) rule, whose
instruction-lifting-backend blob is a *shallow* copy: a new dict with the
same key-to-value-object bindings, so rebinding top-level keys of the
copy's blob cannot affect the original, but nested mutable values remain
shared. -/
theorem copy_equal_shallow_blob (c : ArchClass) (e : String) (fb fb2 : Option Blob)
    (a na : ArchInst) (b : Blob)
    (hinit : Arch.init c e fb = .ok a)
    (hvex : a.vex_archinfo = some b)
    (hcopy : Arch.copy c a fb2 = .ok na) :
    Arch.beq na a = true ∧ na.vex_archinfo = some (dictCopy b) := by
  obtain ⟨na0, b2, hinit2, hvex2, hna⟩ := Arch.copy_ok c a fb2 na hcopy
  rw [hvex] at hvex2
  injection hvex2 with hb2
  subst hb2
  have t1 := Arch.init_triple c e fb a hinit
  have t2 := Arch.init_triple c a.memory_endness fb2 na0 hinit2
  subst hna
  refine ⟨?_, by simp⟩
  have hmem : na0.memory_endness = a.memory_endness := by
    rcases t2 with ⟨_, _, hm2⟩
    rcases t1 with ⟨_, _, hm1⟩
    by_cases hbe : a.memory_endness = Endness.BE
    · rw [hm2, if_pos hbe, hbe]
    · rw [hm2, if_neg hbe]
      by_cases hbe1 : e = Endness.BE
      · rw [hm1, if_pos hbe1] at hbe
        exact absurd rfl hbe
      · rw [hm1, if_neg hbe1]
  simp [Arch.beq, t1.1, t2.1, t1.2.1, t2.2.1, hmem]

/-- The instance `Arch.init c3cls Endness.LE (some blob0)` constructs. -/
def a3lit : ArchInst :=
  ⟨"VEXY", 32, Endness.LE, Endness.LE, [], [], [], [], [], none, none, none,
    some blob0, [], []⟩

/-- Witness for `copy_equal_shallow_blob` at the concrete `c3cls`
descriptor. -/
theorem copy_equal_shallow_blob_witness :
    Arch.beq a3lit a3lit = true ∧ a3lit.vex_archinfo = some (dictCopy blob0) :=
  copy_equal_shallow_blob c3cls Endness.LE (some blob0) (some freshBlob1)
    a3lit a3lit blob0 rfl rfl rfl

/-- Claim C4: on a miss of the respective translation table, both
`translate_dynamic_tag` and `translate_symbol_type` return an integer tag
unchanged; the `KeyError` is caught (src/arch.py lines 255-269), the only
miss-path effect is a log diagnostic, and the embedded functions are
total, so no exception escapes. -/
theorem translate_tags_pass_through (a : ArchInst) (n : Int)
    (h1 : List.lookup (PKey.kint n) a.dynamic_tag_translation = none)
    (h2 : List.lookup (PKey.kint n) a.symbol_type_translation = none) :
    Arch.translate_dynamic_tag a (PKey.kint n) = Sum.inl (PKey.kint n) ∧
    Arch.translate_symbol_type a (PKey.kint n) = Sum.inl (PKey.kint n) := by
  unfold Arch.translate_dynamic_tag Arch.translate_symbol_type
  rw [h1, h2]
  exact ⟨rfl, rfl⟩

/-- A descriptor with small populated translation tables. -/
def a4 : ArchInst :=
  ⟨"TAGS", 32, Endness.LE, Endness.LE, [], [], [], [], [], none, none, none,
    none, [(PKey.kint 1, "DT_NEEDED")], [(PKey.kint 1, "STT_FUNC")]⟩

/-- Witness for `translate_tags_pass_through` at tag 5, absent from both
tables of `a4`. -/
theorem translate_tags_pass_through_witness :
    Arch.translate_dynamic_tag a4 (PKey.kint 5) = Sum.inl (PKey.kint 5) ∧
    Arch.translate_symbol_type a4 (PKey.kint 5) = Sum.inl (PKey.kint 5) :=
  translate_tags_pass_through a4 5 (by decide) (by decide)

/-- The reverse-table derivation exactly as claim C5 words it: entries
are taken in declared order, the generic X86/AMD64 names are excluded,
and on a collision the first winner is kept — the colliding entry is
skipped, and when its name is a key of the display map the claim again
says the new entry "is skipped", so a collision never changes the
table. -/
def register_size_names_claim (name : String) (rn : List (PKey × String)) :
    List (String × (Int × Int)) → List ((Int × Int) × String) →
    List ((Int × Int) × String)
  | [], acc => acc
  | (k, v) :: rest, acc =>
    if (name = "X86" ∨ name = "AMD64") ∧ (k = "bp" ∨ k = "sp" ∨ k = "ip") then
      register_size_names_claim name rn rest acc
    else if (List.lookup v acc).isSome then
      register_size_names_claim name rn rest acc
    else
      register_size_names_claim name rn rest (acc ++ [(v, k)])

/-- The display map of the C5 counterexample: the colliding register
name "b" is present as a key. -/
def rn5 : List (PKey × String) := [(PKey.kstr "b", "b")]

/-- The forward register table of the C5 counterexample: two names
claiming the same (offset, size) pair. -/
def regs5 : List (String × (Int × Int)) := [("a", (0, 4)), ("b", (0, 4))]

/-- Claim C5, counterexample: with the colliding name "b" present as a
key of the display map, the source's derivation *overwrites* the slot
(the condition `k not in self.register_names` at line 119 fails, so the
assignment at line 121 runs), giving "b"; the claim's wording predicts
the new entry is skipped and the first winner "a" is kept.  The two
derivations disagree on this input. -/
theorem register_size_names_collision_counterexample :
    build_register_size_names "TEST" rn5 regs5 [] = [((0, 4), "b")] ∧
    register_size_names_claim "TEST" rn5 regs5 [] = [((0, 4), "a")] ∧
    ("b" : String) ≠ "a" :=
  ⟨by decide, by decide, by decide⟩

/-- The derivation as claim C5 should read: on a collision the first
winner is kept *unless* the new name is a key of the display map, in
which case the new name overwrites the slot in place. -/
def register_size_names_amended (name : String) (rn : List (PKey × String)) :
    List (String × (Int × Int)) → List ((Int × Int) × String) →
    List ((Int × Int) × String)
  | [], acc => acc
  | (k, v) :: rest, acc =>
    if (name = "X86" ∨ name = "AMD64") ∧ (k = "bp" ∨ k = "sp" ∨ k = "ip") then
      register_size_names_amended name rn rest acc
    else if (List.lookup v acc).isSome then
      if (List.lookup (PKey.kstr k) rn).isSome then
        register_size_names_amended name rn rest
          (acc.map (fun p => if p.1 == v then (v, k) else p))
      else
        register_size_names_amended name rn rest acc
    else
      register_size_names_amended name rn rest (acc ++ [(v, k)])

/-- Claim C5 as amended: the source derivation agrees with the amended
description on every variant — declared order, X86/AMD64 exclusion of
the generic names, first winner kept on collision unless the new name is
a display-map key, in which case the new name takes the slot. -/
theorem register_size_names_amended_correct (name : String)
    (rn : List (PKey × String)) (regs : List (String × (Int × Int)))
    (acc : List ((Int × Int) × String)) :
    build_register_size_names name rn regs acc =
      register_size_names_amended name rn regs acc := by
  induction regs generalizing acc with
  | nil => rfl
  | cons kv rest ih =>
    obtain ⟨k, v⟩ := kv
    simp only [build_register_size_names, register_size_names_amended]
    by_cases hx : (name = "X86" ∨ name = "AMD64") ∧ (k = "bp" ∨ k = "sp" ∨ k = "ip")
    · rw [if_pos hx, if_pos hx]
      exact ih acc
    · rw [if_neg hx, if_neg hx]
      cases hv : List.lookup v acc with
      | some w =>
        cases hrn : List.lookup (PKey.kstr k) rn with
        | some d =>
          rw [if_neg (by simp [hv, hrn]), if_pos (by simp [hv]),
            if_pos (by simp [hrn]),
            show dictSet acc v k = acc.map (fun p => if p.1 == v then (v, k) else p) by
              unfold dictSet
              rw [hv]
              rfl]
          exact ih _
        | none =>
          rw [if_pos (by simp [hv, hrn]), if_pos (by simp [hv]),
            if_neg (by simp [hrn])]
          exact ih acc
      | none =>
        rw [if_neg (by simp [hv]), if_neg (by simp [hv]),
          show dictSet acc v k = acc ++ [(v, k)] by
            unfold dictSet
            rw [hv]
            rfl]
        exact ih _

/-- The compiled matcher of the pattern `"^foo"`, i.e.
`re.match("^foo", s)`. -/
def patFoo : String → Bool := fun s => List.isPrefixOf "foo".data s.data

/-- Entry A of the C6 scenario: fixed little endness. -/
def clsA : ArchClass := { name := "fooA", bits := 32 }

/-- Entry B of the C6 scenario: registered second, endness `"any"`. -/
def clsB : ArchClass := { name := "fooB", bits := 32 }

/-- The registry after registering A then B, in that order. -/
def st6 : RegState :=
  (register_arch (register_arch {} [patFoo] 32 Endness.LE clsA none).1
    [patFoo] 32 "any" clsB none).1

/-- Claim C6: with A (patterns ["^foo"], bits 32, little) registered
before B (same pattern and bits, endness "any"), resolving "foo32"
instantiates A's variant at little endness — the scan stops at the first
accepted entry (src/arch.py line 484), so B, though it would also be
accepted, is never reached. -/
theorem registration_order_priority :
    ((arch_from_id st6.arch_id_map "foo32" "any" (BitsHint.bstr "") none).map
        (fun a => (a.name, a.memory_endness))) = .ok ("fooA", Endness.LE) ∧
    clsA.name ≠ clsB.name :=
  ⟨rfl, by decide⟩

/-- Claim C7: descriptor equality holds exactly when the (name, bits,
memory-endianness) triples match (so endianness-distinct instances of a
family are never equal), and replacing the instruction-lifting-backend
blob never changes the verdict — `Arch.__eq__` reads only the three
triple fields. -/
theorem arch_eq_iff_triple (a b : ArchInst) :
    (Arch.beq a b = true ↔
      (a.name = b.name ∧ a.bits = b.bits ∧
        a.memory_endness = b.memory_endness)) ∧
    ∀ blob, Arch.beq { a with vex_archinfo := blob } b = Arch.beq a b := by
  refine ⟨?_, fun blob => rfl⟩
  simp [Arch.beq, and_assoc]

/-- A 32-bit little-endian descriptor (as used in the C7 and C9
examples). -/
def lil32 : ArchInst :=
  ⟨"lil", 32, Endness.LE, Endness.LE, [], [], [], [], [], none, none, none,
    none, [], []⟩

/-- The same descriptor at big memory endness only. -/
def big32 : ArchInst :=
  ⟨"lil", 32, Endness.BE, Endness.BE, [], [], [], [], [], none, none, none,
    none, [], []⟩

/-- Witness for `arch_eq_iff_triple`: reflexive equality at a concrete
descriptor, and inequality of the two descriptors differing only in
endianness. -/
theorem arch_eq_iff_triple_witness :
    Arch.beq lil32 lil32 = true ∧ ¬ Arch.beq lil32 big32 = true :=
  ⟨(arch_eq_iff_triple lil32 lil32).1.mpr ⟨rfl, rfl, rfl⟩,
   fun hcon => absurd ((arch_eq_iff_triple lil32 big32).1.mp hcon).2.2 (by decide)⟩

/-- Claim C8: for a variant whose instruction byte strings have lengths
that are multiples of 4, the little-endian construction keeps the
declared return/no-op bytes, and the big-endian construction yields
exactly their 4-byte-group reversals relative to the little-endian
construction (src/arch.py lines 107-108 via `reverse_ends`). -/
theorem big_endian_flips_instruction_bytes (c : ArchClass) (fb : Option Blob)
    (aLE aBE : ArchInst)
    (hret : c.ret_instruction.length % 4 = 0)
    (hnop : c.nop_instruction.length % 4 = 0)
    (hLE : Arch.init c Endness.LE fb = .ok aLE)
    (hBE : Arch.init c Endness.BE fb = .ok aBE) :
    aLE.ret_instruction = c.ret_instruction ∧
    aLE.nop_instruction = c.nop_instruction ∧
    aBE.ret_instruction = rev4groups aLE.ret_instruction ∧
    aBE.nop_instruction = rev4groups aLE.nop_instruction := by
  obtain ⟨-, -, -, -, hret1, hnop1, -⟩ :=
    Arch.init_not_be c Endness.LE fb aLE (by decide) hLE
  obtain ⟨-, -, -, -, hret2, hnop2⟩ := Arch.init_be c fb aBE hBE
  rw [reverse_ends_eq_rev4groups _ hret] at hret2
  rw [reverse_ends_eq_rev4groups _ hnop] at hnop2
  injection hret2 with e1
  injection hnop2 with e2
  refine ⟨hret1, hnop1, ?_, ?_⟩
  · rw [hret1]
    exact e1.symm
  · rw [hnop1]
    exact e2.symm

/-- A variant with 4-byte return and no-op instruction strings. -/
def cls8 : ArchClass :=
  { name := "R8", bits := 32, ret_instruction := [1, 2, 3, 4],
    nop_instruction := [5, 6, 7, 8] }

/-- The little-endian construction of `cls8`. -/
def aLE8 : ArchInst :=
  ⟨"R8", 32, Endness.LE, Endness.LE, [1, 2, 3, 4], [5, 6, 7, 8], [], [], [],
    none, none, none, none, [], []⟩

/-- The big-endian construction of `cls8`: the byte strings reversed in
their single 4-byte group. -/
def aBE8 : ArchInst :=
  ⟨"R8", 32, Endness.BE, Endness.BE, [4, 3, 2, 1], [8, 7, 6, 5], [], [], [],
    none, none, none, none, [], []⟩

/-- Witness for `big_endian_flips_instruction_bytes` at `cls8`. -/
theorem big_endian_flips_instruction_bytes_witness :
    aLE8.ret_instruction = cls8.ret_instruction ∧
    aLE8.nop_instruction = cls8.nop_instruction ∧
    aBE8.ret_instruction = rev4groups aLE8.ret_instruction ∧
    aBE8.nop_instruction = rev4groups aLE8.nop_instruction :=
  big_endian_flips_instruction_bytes cls8 none aLE8 aBE8 (by decide) (by decide)
    rfl rfl

/-- Claim C9: `struct_fmt` succeeds exactly for effective widths 8, 16,
32 or 64 bits (the `size` argument defaulting to the descriptor's own
width), the produced format starts with the big-endian prefix exactly
when the memory endness is big, and every other width yields the
`ValueError` of src/arch.py line 217. -/
theorem struct_fmt_spec_correct (a : ArchInst) (size : Option Int) :
    ((∃ f, struct_fmt a size = .ok f) ↔
      (size.getD a.bits = 8 ∨ size.getD a.bits = 16 ∨
        size.getD a.bits = 32 ∨ size.getD a.bits = 64)) ∧
    (∀ f, struct_fmt a size = .ok f →
      ((f.take 1 = ">") ↔ a.memory_endness = Endness.BE)) ∧
    (¬ (size.getD a.bits = 8 ∨ size.getD a.bits = 16 ∨
        size.getD a.bits = 32 ∨ size.getD a.bits = 64) →
      struct_fmt a size = .error (.valueError "Invalid size: Must be a muliple of 8")) := by
  have hsz : struct_fmt a size = struct_fmt a (some (size.getD a.bits)) := by
    cases size <;> rfl
  rw [hsz]
  generalize size.getD a.bits = s
  have hpre : ∀ L : String, L = "Q" ∨ L = "I" ∨ L = "H" ∨ L = "B" →
      ((((if a.memory_endness = Endness.BE then ">" else "<") ++ L).take 1 = ">")
        ↔ a.memory_endness = Endness.BE) := by
    intro L hL
    by_cases hbe : a.memory_endness = Endness.BE
    · rw [if_pos hbe]
      simp only [hbe, iff_true]
      rcases hL with h | h | h | h <;> subst h <;> decide
    · rw [if_neg hbe]
      simp only [hbe, iff_false]
      rcases hL with h | h | h | h <;> subst h <;> decide
  refine ⟨⟨?_, ?_⟩, ?_, ?_⟩
  · rintro ⟨f, hf⟩
    simp only [struct_fmt] at hf
    by_cases h64 : s = 64
    · exact Or.inr (Or.inr (Or.inr h64))
    by_cases h32 : s = 32
    · exact Or.inr (Or.inr (Or.inl h32))
    by_cases h16 : s = 16
    · exact Or.inr (Or.inl h16)
    by_cases h8 : s = 8
    · exact Or.inl h8
    rw [if_neg h64, if_neg h32, if_neg h16, if_neg h8] at hf
    exact Except.noConfusion hf
  · rintro (h | h | h | h) <;> subst h <;> exact ⟨_, rfl⟩
  · intro f hf
    simp only [struct_fmt] at hf
    by_cases h64 : s = 64
    · rw [if_pos h64] at hf
      injection hf with hf2
      subst hf2
      exact hpre "Q" (Or.inl rfl)
    rw [if_neg h64] at hf
    by_cases h32 : s = 32
    · rw [if_pos h32] at hf
      injection hf with hf2
      subst hf2
      exact hpre "I" (Or.inr (Or.inl rfl))
    rw [if_neg h32] at hf
    by_cases h16 : s = 16
    · rw [if_pos h16] at hf
      injection hf with hf2
      subst hf2
      exact hpre "H" (Or.inr (Or.inr (Or.inl rfl)))
    rw [if_neg h16] at hf
    by_cases h8 : s = 8
    · rw [if_pos h8] at hf
      injection hf with hf2
      subst hf2
      exact hpre "B" (Or.inr (Or.inr (Or.inr rfl)))
    rw [if_neg h8] at hf
    exact Except.noConfusion hf
  · intro hno
    simp only [not_or] at hno
    simp only [struct_fmt]
    rw [if_neg hno.2.2.2, if_neg hno.2.2.1, if_neg hno.2.1, if_neg hno.1]

/-- Witness for `struct_fmt_spec_correct`: on the little-endian 32-bit
descriptor, width 32 succeeds with the little-endian 4-byte unsigned
format, and width 7 fails with the `ValueError`. -/
theorem struct_fmt_spec_correct_witness :
    (∃ f, struct_fmt lil32 (some 32) = .ok f) ∧
    struct_fmt lil32 (some 32) = .ok "<I" ∧
    ¬ (("<I" : String).take 1 = ">") ∧
    struct_fmt lil32 (some 7) =
      .error (.valueError "Invalid size: Must be a muliple of 8") := by
  refine ⟨(struct_fmt_spec_correct lil32 (some 32)).1.mpr (by decide), rfl, ?_,
    (struct_fmt_spec_correct lil32 (some 7)).2.2 (by decide)⟩
  intro hcon
  have hiff := (struct_fmt_spec_correct lil32 (some 32)).2.1 "<I" rfl
  exact absurd (hiff.mp hcon) (by decide)

/-- Auxiliary induction for claim C10, on the number of 4-byte groups. -/
theorem reverse_ends_involutive_aux (n : Nat) :
    ∀ s : List Nat, s.length = 4 * n →
      (reverse_ends s).bind reverse_ends = some s := by
  induction n with
  | zero =>
    intro s hs
    have hnil : s = [] := List.length_eq_zero.mp (by omega)
    subst hnil
    rfl
  | succ m ih =>
    intro s hs
    rcases s with _ | ⟨a, _ | ⟨b, _ | ⟨c, _ | ⟨d, t⟩⟩⟩⟩ <;>
      simp only [List.length_nil, List.length_cons] at hs
    · omega
    · omega
    · omega
    · omega
    · have ht : t.length = 4 * m := by omega
      have iht := ih t ht
      cases hrt : reverse_ends t with
      | none =>
        rw [hrt] at iht
        exact Option.noConfusion iht
      | some rt =>
        rw [hrt] at iht
        have hrr : reverse_ends rt = some t := iht
        have h1 : reverse_ends (a :: b :: c :: d :: t) =
            (reverse_ends t).map (fun r => d :: c :: b :: a :: r) := rfl
        rw [h1, hrt]
        show reverse_ends (d :: c :: b :: a :: rt) = some (a :: b :: c :: d :: t)
        have h2 : reverse_ends (d :: c :: b :: a :: rt) =
            (reverse_ends rt).map (fun r => a :: b :: c :: d :: r) := rfl
        rw [h2, hrr]
        rfl

/-- Claim C10: on every byte string whose length is a multiple of 4,
`reverse_ends` succeeds and applying it to its own output returns the
original string — the 4-byte-group byte reversal is an involution. -/
theorem reverse_ends_involutive (s : List Nat) (h : s.length % 4 = 0) :
    (reverse_ends s).bind reverse_ends = some s :=
  reverse_ends_involutive_aux (s.length / 4) s (by omega)

/-- Witness for `reverse_ends_involutive` at a concrete 8-byte string. -/
theorem reverse_ends_involutive_witness :
    (reverse_ends [1, 2, 3, 4, 5, 6, 7, 8]).bind reverse_ends =
      some [1, 2, 3, 4, 5, 6, 7, 8] :=
  reverse_ends_involutive [1, 2, 3, 4, 5, 6, 7, 8] (by decide)
